import Mathlib

/-!
Verification development for the revenue aggregation engine
(`src/stripe_api.js`): civil-date arithmetic in the fixed
America/Chicago reference zone, the two aggregation policies
(`aggregateRents`, `aggregateCharges`), and the `/rents/*` route logic.
-/

namespace KeyExtract

/-- A civil (proleptic Gregorian) calendar date: year, month, day. -/
structure Civil where
  year : Int
  month : Int
  day : Int
deriving Repr, DecidableEq

/-- Epoch day number (days since 1970-01-01) of a civil date, by the
standard civil-from-days algorithm with floor division. Models the
calendar arithmetic of the luxon library used by `stripe_api.js`. -/
def daysFromCivil (c : Civil) : Int :=
  let y := if c.month ≤ 2 then c.year - 1 else c.year
  let era := y / 400
  let yoe := y - era * 400
  let mp := c.month + (if 2 < c.month then -3 else 9)
  let doy := (153 * mp + 2) / 5 + c.day - 1
  let doe := yoe * 365 + yoe / 4 - yoe / 100 + doy
  era * 146097 + doe - 719468

/-- Civil date of an epoch day number (inverse of `daysFromCivil`),
again with floor division. -/
def civilFromDays (z : Int) : Civil :=
  let z2 := z + 719468
  let era := z2 / 146097
  let doe := z2 - era * 146097
  let yoe := (doe - doe / 1460 + doe / 36524 - doe / 146096) / 365
  let y := yoe + era * 400
  let doy := doe - (365 * yoe + yoe / 4 - yoe / 100)
  let mp := (5 * doy + 2) / 153
  let d := doy - (153 * mp + 2) / 5 + 1
  let m := mp + (if mp < 10 then 3 else -9)
  { year := if m ≤ 2 then y + 1 else y, month := m, day := d }

/-- Day of week of an epoch day (0 = Sunday); 1970-01-01 was a Thursday. -/
def weekday (z : Int) : Int :=
  (z + 4) % 7

/-- Day-of-month of the second Sunday of March of a year (US DST start day). -/
def secondSundayOfMarch (y : Int) : Int :=
  let dow := weekday (daysFromCivil { year := y, month := 3, day := 1 })
  1 + (7 - dow) % 7 + 7

/-- Day-of-month of the first Sunday of November of a year (US DST end day). -/
def firstSundayOfNovember (y : Int) : Int :=
  let dow := weekday (daysFromCivil { year := y, month := 11, day := 1 })
  1 + (7 - dow) % 7

/-- UTC offset (in seconds) of America/Chicago at a given unix instant:
-5h (CDT) from 2:00 local on the second Sunday of March until 2:00 local
on the first Sunday of November, else -6h (CST). Models the IANA zone
rules (post-2007 US rule) applied by luxon's `setZone('America/Chicago')`. -/
def chicagoOffsetSeconds (u : Int) : Int :=
  let y := (civilFromDays (u / 86400)).year
  let dstStartUtc := daysFromCivil { year := y, month := 3, day := secondSundayOfMarch y } * 86400 + 8 * 3600
  let dstEndUtc := daysFromCivil { year := y, month := 11, day := firstSundayOfNovember y } * 86400 + 7 * 3600
  if dstStartUtc ≤ u ∧ u < dstEndUtc then -18000 else -21600

/-- Civil date in America/Chicago of a unix instant (seconds). -/
def chicagoCivilFromUnix (u : Int) : Civil :=
  civilFromDays ((u + chicagoOffsetSeconds u) / 86400)

/-- Left-pad the decimal representation of a natural number to a width. -/
def padNat (width : Nat) (n : Nat) : String :=
  let s := toString n
  if s.length < width then String.mk (List.replicate (width - s.length) '0') ++ s else s

/-- ISO `YYYY-MM-DD` rendering of a civil date (as luxon `toISODate`). -/
def toISODate (c : Civil) : String :=
  padNat 4 c.year.toNat ++ "-" ++ padNat 2 c.month.toNat ++ "-" ++ padNat 2 c.day.toNat

/-- `chicagoDateStringFromUnix` from `stripe_api.js`: the `YYYY-MM-DD`
string of a unix timestamp (seconds) in Chicago time. -/
def chicagoDateStringFromUnix (u : Int) : String :=
  toISODate (chicagoCivilFromUnix u)

/-- Split a character list at every occurrence of a separator
(models JS `String.prototype.split` with a one-character separator). -/
def splitChars (sep : Char) : List Char → List (List Char)
  | [] => [[]]
  | c :: rest =>
    let r := splitChars sep rest
    if c = sep then [] :: r
    else
      match r with
      | [] => [[c]]
      | g :: gs => (c :: g) :: gs

/-- Decimal value of a digit string (models JS `Number` on the digit-only
strings produced by ISO date keys; `none` on any non-digit). -/
def decValue : List Char → Nat → Option Nat
  | [], acc => some acc
  | c :: rest, acc =>
    if c.isDigit then decValue rest (acc * 10 + (c.toNat - 48)) else none

/-- Numeric fields of a `YYYY-MM-DD` string, as
`dateStr.split('-').map(Number)` produces them. -/
def isoParts (dateStr : String) : List Nat :=
  (splitChars '-' dateStr.toList).map (fun cs => (decValue cs 0).getD 0)

/-- `formatDateLabel` from `stripe_api.js`: renders `YYYY-MM-DD` as e.g.
`Jan 15, 2024` (month-name table indexed by month minus one). -/
def formatDateLabel (dateStr : String) : String :=
  let parts := isoParts dateStr
  let y := parts.getD 0 0
  let m := parts.getD 1 0
  let d := parts.getD 2 0
  let months := ["Jan", "Feb", "Mar", "Apr", "May", "Jun", "Jul", "Aug", "Sep", "Oct", "Nov", "Dec"]
  months.getD (m - 1) "undefined" ++ " " ++ toString d ++ ", " ++ toString y

/-- `REVENUE_TYPES` from `stripe_api.js`: the nine transaction types
included in positive/negative revenue. -/
def REVENUE_TYPES : List String :=
  ["charge", "payment", "payment_refund", "refund", "payment_reversal",
   "payment_failure_refund", "stripe_fee", "stripe_fx_fee", "tax_fee"]

/-- One per-day bucket of `byDay`: display label, rent count, net cents. -/
structure DayBucket where
  date : String
  rents : Nat
  netCents : Int
deriving Repr, DecidableEq

/-- A Stripe balance transaction as consumed by `aggregateRents`
(`net` and `type` may be absent, as `bt.net != null` / `bt.type || ''`
in the source allow). -/
structure BalanceTransaction where
  created : Int
  type : Option String
  net : Option Int
deriving Repr, DecidableEq

/-- A Stripe charge as consumed by `aggregateCharges` (`amount_captured`,
legacy `amount` and `amount_refunded` may each be absent, as the
`??` chains in the source allow). -/
structure Charge where
  created : Int
  amount_captured : Option Int
  amount : Option Int
  amount_refunded : Option Int
deriving Repr, DecidableEq

/-- Result shape of both aggregators: totals plus the `byDay` map,
modelled as an association list in JS-object insertion order. -/
structure Agg where
  positiveCents : Int
  negativeCents : Int
  byDay : List (String × DayBucket)
deriving Repr, DecidableEq

/-- Lookup in a `byDay` association list (JS `byDay[key]`). -/
def alGet (m : List (String × DayBucket)) (k : String) : Option DayBucket :=
  match m with
  | [] => none
  | kv :: rest => if kv.1 = k then some kv.2 else alGet rest k

/-- JS `byDay[key] = v`: replace the value at an existing key in place,
else append the binding (string keys keep insertion order). -/
def alSet (m : List (String × DayBucket)) (k : String) (v : DayBucket) : List (String × DayBucket) :=
  match m with
  | [] => [(k, v)]
  | kv :: rest => if kv.1 = k then (k, v) :: rest else kv :: alSet rest k v

/-- The `byDay` update both aggregators perform for one entry: create the
key's bucket (zeroed, with its display label) when absent, then add `dn`
to its `netCents` and `dr` to its `rents`. -/
def bumpDay (m : List (String × DayBucket)) (k lbl : String) (dn : Int) (dr : Nat) :
    List (String × DayBucket) :=
  match m with
  | [] => [(k, { date := lbl, rents := dr, netCents := dn })]
  | kv :: rest =>
    if kv.1 = k then
      (kv.1, { kv.2 with netCents := kv.2.netCents + dn, rents := kv.2.rents + dr }) :: rest
    else kv :: bumpDay rest k lbl dn dr

/-- Pre-seeding loop shared by both aggregators: when `dayKeys` is an
array, each key gets a zero bucket before any entry is folded in. -/
def seedByDay (dayKeys : Option (List String)) : List (String × DayBucket) :=
  match dayKeys with
  | none => []
  | some ks => ks.foldl (fun m k => alSet m k { date := formatDateLabel k, rents := 0, netCents := 0 }) []

/-- Loop body of `aggregateRents` for one balance transaction. -/
def rentsStep (acc : Agg) (bt : BalanceTransaction) : Agg :=
  let net := bt.net.getD 0
  let type := bt.type.getD ""
  let key := chicagoDateStringFromUnix bt.created
  if REVENUE_TYPES.contains type then
    { positiveCents := if 0 < net then acc.positiveCents + net else acc.positiveCents
      negativeCents := if net < 0 then acc.negativeCents + net else acc.negativeCents
      byDay := bumpDay acc.byDay key (formatDateLabel key)
        net (if type = "charge" ∧ 0 < net then 1 else 0) }
  else acc

/-- `aggregateRents` from `stripe_api.js`: fold balance transactions into
positive/negative totals and per-day rents/net, with optional pre-seeded
day keys. -/
def aggregateRents (balanceTransactions : List BalanceTransaction)
    (dayKeys : Option (List String) := none) : Agg :=
  balanceTransactions.foldl rentsStep
    { positiveCents := 0, negativeCents := 0, byDay := seedByDay dayKeys }

/-- Captured cents of a charge: `ch.amount_captured ?? ch.amount ?? 0`. -/
def capturedCents (ch : Charge) : Int :=
  (ch.amount_captured.orElse (fun _ => ch.amount)).getD 0

/-- Refunded cents of a charge: `ch.amount_refunded ?? 0`. -/
def refundedCents (ch : Charge) : Int :=
  ch.amount_refunded.getD 0

/-- Loop body of `aggregateCharges` for one charge. -/
def chargesStep (acc : Agg) (ch : Charge) : Agg :=
  let captured := capturedCents ch
  let refunded := refundedCents ch
  let net := if 0 < captured then captured - refunded else 0
  let refundForNegative := if 0 < captured then refunded else 0
  let key := chicagoDateStringFromUnix ch.created
  { positiveCents := acc.positiveCents + captured
    negativeCents := acc.negativeCents + refundForNegative
    byDay := bumpDay acc.byDay key (formatDateLabel key) net (if 0 < net then 1 else 0) }

/-- `aggregateCharges` from `stripe_api.js`: fold charges into
positive/negative totals and per-day rents/net, with optional pre-seeded
day keys. -/
def aggregateCharges (charges : List Charge)
    (dayKeys : Option (List String) := none) : Agg :=
  charges.foldl chargesStep
    { positiveCents := 0, negativeCents := 0, byDay := seedByDay dayKeys }

/-- Net cents recorded for a key in a `byDay` map (0 when the key has no
bucket). -/
def netAt (m : List (String × DayBucket)) (k : String) : Int :=
  match alGet m k with
  | none => 0
  | some b => b.netCents

/-- Rent count recorded for a key in a `byDay` map (0 when the key has no
bucket). -/
def rentsAt (m : List (String × DayBucket)) (k : String) : Nat :=
  match alGet m k with
  | none => 0
  | some b => b.rents

/-- Sum of `netCents` over all day buckets of a `byDay` map. -/
def sumNet : List (String × DayBucket) → Int
  | [] => 0
  | kv :: rest => kv.2.netCents + sumNet rest

/-- Leap-year test of the proleptic Gregorian calendar. -/
def isLeap (y : Int) : Bool :=
  (y % 4 == 0 && y % 100 != 0) || y % 400 == 0

/-- Number of days in a civil month (0 for an invalid month number).
Models luxon's `daysInMonth`. -/
def daysInMonth (y m : Int) : Int :=
  if m = 2 then (if isLeap y then 29 else 28)
  else if m = 4 ∨ m = 6 ∨ m = 9 ∨ m = 11 then 30
  else if 1 ≤ m ∧ m ≤ 12 then 31
  else 0

/-- Luxon `dt.minus({months: 1})` on a civil date: step the month back by
one (wrapping the year) and clamp the day-of-month to the target month's
length. -/
def minusOneMonth (c : Civil) : Civil :=
  let y := if c.month = 1 then c.year - 1 else c.year
  let m := if c.month = 1 then 12 else c.month - 1
  { year := y, month := m, day := min c.day (daysInMonth y m) }

/-- The comparison window `[prevMonthStart, prevMonthSameDay]` computed by
the `/rents/mtd` routes from today's Chicago civil date:
`monthStart.minus({months: 1})` and `todayStart.minus({months: 1})`. -/
def mtdComparisonWindow (today : Civil) : Civil × Civil :=
  (minusOneMonth { today with day := 1 }, minusOneMonth today)

/-- Civil date encoded in a `YYYY-MM-DD` string (fields default to 0, as
JS `Number` coercion would make malformed fields `NaN`). -/
def parseIsoCivil (s : String) : Civil :=
  let parts := isoParts s
  { year := parts.getD 0 0, month := parts.getD 1 0, day := parts.getD 2 0 }

/-- Comparison key used by the day-key alignment in the windowed routes:
`DateTime.fromObject({year, month, day}).minus({months: 1}).toISODate()`. -/
def prevKeyIso (key : String) : String :=
  toISODate (minusOneMonth (parseIsoCivil key))

/-- UTC offset luxon assigns to a local Chicago wall-clock instant
(`naive` = local seconds since epoch as if UTC): CDT between 2:00 on the
second Sunday of March and 2:00 on the first Sunday of November, else CST. -/
def chicagoLocalOffsetSeconds (naive : Int) : Int :=
  let y := (civilFromDays (naive / 86400)).year
  let dstStartLocal := daysFromCivil { year := y, month := 3, day := secondSundayOfMarch y } * 86400 + 2 * 3600
  let dstEndLocal := daysFromCivil { year := y, month := 11, day := firstSundayOfNovember y } * 86400 + 2 * 3600
  if dstStartLocal ≤ naive ∧ naive < dstEndLocal then -18000 else -21600

/-- Unix seconds of a Chicago local time given as civil date plus
seconds-of-day (models `DateTime.fromISO(value, {zone: CHICAGO_ZONE})`). -/
def chicagoLocalToUnix (c : Civil) (secondsOfDay : Int) : Int :=
  let naive := daysFromCivil c * 86400 + secondsOfDay
  naive - chicagoLocalOffsetSeconds naive

/-- `parseDateToUnixSeconds` from `stripe_api.js`, restricted to the
`YYYY-MM-DD` branch used by the range route: start of day, or end of day
(luxon `endOf('day')` is 23:59:59.999, floored to 23:59:59 by
`Math.floor(dt.toSeconds())`). -/
def parseDateToUnixSecondsISO (value : String) (endOfDay : Bool) : Int :=
  let c := parseIsoCivil value
  if endOfDay then chicagoLocalToUnix c 86399 else chicagoLocalToUnix c 0

/-- ISO day keys from one civil date to another inclusive (empty when the
end precedes the start), as the `while (d <= toDt) { push; plus 1 day }`
loops of the range routes produce them. -/
def dayKeysBetween (f t : Civil) : List String :=
  let n := (daysFromCivil t - daysFromCivil f + 1).toNat
  (List.range n).map (fun i => toISODate (civilFromDays (daysFromCivil f + i)))

/-- One `$`-prefixed money string: `'$' + (cents / 100).toFixed(0)`
(round half away from zero after the sign split, as `toFixed` specifies;
negative inputs keep a leading minus, including `-0`). -/
def moneyString (cents : Int) : String :=
  if cents < 0 then "$-" ++ toString (((-cents + 50) / 100).toNat)
  else "$" ++ toString (((cents + 50) / 100).toNat)

/-- One element of a windowed route's `data` array. -/
structure Row where
  date : String
  rents : Nat
  money : String
  prents : Nat
  pmoney : String
deriving Repr, DecidableEq

/-- The row the windowed routes build for one primary day key: current
bucket values plus the comparison bucket one calendar month earlier, with
`prents: 0, pmoney: "$0"` when that comparison bucket is absent. The
current bucket is always present because `aggregateRents` pre-seeds every
`dayKeys` entry; the zero default keeps the model total. -/
def rowFor (byDay byDayPrev : List (String × DayBucket)) (key : String) : Row :=
  let b := (alGet byDay key).getD { date := formatDateLabel key, rents := 0, netCents := 0 }
  match alGet byDayPrev (prevKeyIso key) with
  | some prev =>
    { date := b.date, rents := b.rents, money := moneyString b.netCents,
      prents := prev.rents, pmoney := moneyString prev.netCents }
  | none =>
    { date := b.date, rents := b.rents, money := moneyString b.netCents,
      prents := 0, pmoney := "$0" }

/-- The `data` array of a windowed route: one row per primary day key. -/
def alignData (dayKeys : List String) (byDay byDayPrev : List (String × DayBucket)) : List Row :=
  dayKeys.map (rowFor byDay byDayPrev)

/-- Success envelope a windowed route (`mtd`, `range`, `from`) assembles
after both aggregations (totals kept in cents; the route divides by 100
for display). -/
structure WindowResponse where
  success : Bool
  label : String
  positiveCents : Int
  negativeCents : Int
  ppositiveCents : Int
  pnegativeCents : Int
  data : List Row
deriving Repr, DecidableEq

/-- Post-fetch body of the windowed routes: aggregate the primary and the
comparison entry lists, align the day keys, and answer successfully. -/
def windowRespond (lbl : String) (dayKeys prevDayKeys : List String)
    (bts prevBts : List BalanceTransaction) : WindowResponse :=
  let a := aggregateRents bts (some dayKeys)
  let p := aggregateRents prevBts (some prevDayKeys)
  { success := true
    label := lbl
    positiveCents := a.positiveCents
    negativeCents := a.negativeCents
    ppositiveCents := p.positiveCents
    pnegativeCents := p.negativeCents
    data := alignData dayKeys a.byDay p.byDay }

/-- Failure envelope `{success: false, error}` of every `/rents/*` route. -/
structure Envelope where
  success : Bool
  error : String
deriving Repr, DecidableEq

/-- Outcome of the validation phase of `GET /rents/range`: an immediate
rejection (no ledger fetch, no report), or the fetch bounds and day keys
the route goes on to fetch and aggregate with. -/
inductive RangeOutcome where
  | reject (status : Nat) (env : Envelope)
  | proceed (dayKeys prevDayKeys : List String) (gte lte gtePrev ltePrev : Int)
deriving Repr, DecidableEq

/-- Validation phase of `GET /rents/range`: 400 when `from` or `to` is
missing (or empty, both being falsy in JS), 400 when `from` parses to an
instant after `to`, else the fetch parameters. -/
def rentsRangeValidate (fromParam toParam : Option String) : RangeOutcome :=
  match fromParam, toParam with
  | some f, some t =>
    if f = "" ∨ t = "" then
      .reject 400 { success := false, error := "Query params from and to (YYYY-MM-DD) are required." }
    else
      let fromDt := chicagoLocalToUnix (parseIsoCivil f) 0
      let toDt := chicagoLocalToUnix (parseIsoCivil t) 0
      if toDt < fromDt then
        .reject 400 { success := false, error := "from must be on or before to." }
      else
        let prevFrom := minusOneMonth (parseIsoCivil f)
        let prevTo := minusOneMonth (parseIsoCivil t)
        .proceed (dayKeysBetween (parseIsoCivil f) (parseIsoCivil t))
          (dayKeysBetween prevFrom prevTo)
          (parseDateToUnixSecondsISO f false)
          (parseDateToUnixSecondsISO t true)
          (parseDateToUnixSecondsISO (toISODate prevFrom) false)
          (parseDateToUnixSecondsISO (toISODate prevTo) true)
  | _, _ =>
    .reject 400 { success := false, error := "Query params from and to (YYYY-MM-DD) are required." }

/-- Outcome of the station-resolution phase of `GET /rents/mtd/:station_id`:
a rejection, or the single `station_id` echoed in the response together
with the single Stripe customer filter used for both charge fetches. -/
inductive StationOutcome where
  | reject (status : Nat) (env : Envelope)
  | proceed (station_id : String) (customerFilter : String)
deriving Repr, DecidableEq

/-- Whitespace trim of both ends of a string, modelling JS
`String.prototype.trim` at the character level. -/
def jsTrim (s : String) : String :=
  String.mk (((s.toList.dropWhile Char.isWhitespace).reverse.dropWhile Char.isWhitespace).reverse)

/-- Station-resolution phase of `GET /rents/mtd/:station_id`, translated
line by line: the whole path parameter is trimmed and looked up as ONE
station id (`SELECT ... WHERE id = $1`); a `stations` row is modelled as
its `stripe_id` column (`none` = NULL). No splitting on `.` occurs. -/
def rentsMtdStationResolve (db : String → Option (Option String)) (station_id : String) :
    StationOutcome :=
  if jsTrim station_id = "" then
    .reject 400 { success := false, error := "station_id is required." }
  else
    match db (jsTrim station_id) with
    | none => .reject 404 { success := false, error := "Station not found." }
    | some stripeId =>
      match stripeId with
      | none => .reject 400 { success := false, error := "Station has no stripe_id configured." }
      | some sid =>
        if jsTrim sid = "" then
          .reject 400 { success := false, error := "Station has no stripe_id configured." }
        else
          .proceed (jsTrim station_id) (jsTrim sid)

theorem rentsStep_unrecognized (acc : Agg) (e : BalanceTransaction)
    (hrec : REVENUE_TYPES.contains (e.type.getD "") = false) :
    rentsStep acc e = acc := by
  simp only [rentsStep]
  rw [hrec]
  simp

theorem rentsStep_recognized (acc : Agg) (e : BalanceTransaction)
    (hrec : REVENUE_TYPES.contains (e.type.getD "") = true) :
    rentsStep acc e =
      { positiveCents := if 0 < e.net.getD 0 then acc.positiveCents + e.net.getD 0
          else acc.positiveCents
        negativeCents := if e.net.getD 0 < 0 then acc.negativeCents + e.net.getD 0
          else acc.negativeCents
        byDay := bumpDay acc.byDay (chicagoDateStringFromUnix e.created)
          (formatDateLabel (chicagoDateStringFromUnix e.created)) (e.net.getD 0)
          (if e.type.getD "" = "charge" ∧ 0 < e.net.getD 0 then 1 else 0) } := by
  simp only [rentsStep]
  rw [hrec]
  simp

theorem aggregateRents_append_single (l : List BalanceTransaction) (e : BalanceTransaction)
    (dk : Option (List String)) :
    aggregateRents (l ++ [e]) dk = rentsStep (aggregateRents l dk) e := by
  simp [aggregateRents, List.foldl_append]

theorem aggregateCharges_append_single (l : List Charge) (c : Charge)
    (dk : Option (List String)) :
    aggregateCharges (l ++ [c]) dk = chargesStep (aggregateCharges l dk) c := by
  simp [aggregateCharges, List.foldl_append]

theorem netAt_cons (kv : String × DayBucket) (rest : List (String × DayBucket)) (k : String) :
    netAt (kv :: rest) k = if kv.1 = k then kv.2.netCents else netAt rest k := by
  by_cases hk : kv.1 = k <;> simp [netAt, alGet, hk]

theorem rentsAt_cons (kv : String × DayBucket) (rest : List (String × DayBucket)) (k : String) :
    rentsAt (kv :: rest) k = if kv.1 = k then kv.2.rents else rentsAt rest k := by
  by_cases hk : kv.1 = k <;> simp [rentsAt, alGet, hk]

theorem netAt_bumpDay_self (m : List (String × DayBucket)) (k lbl : String) (dn : Int) (dr : Nat) :
    netAt (bumpDay m k lbl dn dr) k = netAt m k + dn := by
  induction m with
  | nil => simp [bumpDay, netAt, alGet]
  | cons kv rest ih =>
    by_cases h : kv.1 = k
    · simp [bumpDay, h, netAt_cons]
    · simp [bumpDay, h, netAt_cons, ih]

theorem rentsAt_bumpDay_self (m : List (String × DayBucket)) (k lbl : String) (dn : Int) (dr : Nat) :
    rentsAt (bumpDay m k lbl dn dr) k = rentsAt m k + dr := by
  induction m with
  | nil => simp [bumpDay, rentsAt, alGet]
  | cons kv rest ih =>
    by_cases h : kv.1 = k
    · simp [bumpDay, h, rentsAt_cons]
    · simp [bumpDay, h, rentsAt_cons, ih]

theorem alGet_bumpDay_ne (m : List (String × DayBucket)) (k lbl : String) (dn : Int) (dr : Nat)
    (k2 : String) (h : k2 ≠ k) :
    alGet (bumpDay m k lbl dn dr) k2 = alGet m k2 := by
  induction m with
  | nil =>
    have h2 : ¬ k = k2 := fun hh => h hh.symm
    simp [bumpDay, alGet, h2]
  | cons kv rest ih =>
    have hknk2 : ¬ k = k2 := fun hh => h hh.symm
    by_cases hk : kv.1 = k
    · simp [bumpDay, hk, alGet, hknk2]
    · by_cases hk2 : kv.1 = k2
      · simp [bumpDay, hk, alGet, hk2, h]
      · simp [bumpDay, hk, alGet, hk2, ih]

theorem alGet_bumpDay_self_isSome (m : List (String × DayBucket)) (k lbl : String)
    (dn : Int) (dr : Nat) :
    (alGet (bumpDay m k lbl dn dr) k).isSome = true := by
  induction m with
  | nil => simp [bumpDay, alGet]
  | cons kv rest ih =>
    by_cases h : kv.1 = k
    · simp [bumpDay, h, alGet]
    · simp [bumpDay, h, alGet, ih]

theorem sumNet_bumpDay (m : List (String × DayBucket)) (k lbl : String) (dn : Int) (dr : Nat) :
    sumNet (bumpDay m k lbl dn dr) = sumNet m + dn := by
  induction m with
  | nil => simp [bumpDay, sumNet]
  | cons kv rest ih =>
    by_cases h : kv.1 = k
    · simp only [bumpDay, h, if_pos]
      simp [sumNet]
      ring
    · simp only [bumpDay, h, if_neg, not_false_iff]
      simp [sumNet, ih]
      ring

theorem alSet_netCents_zero (m : List (String × DayBucket)) (k : String) (v : DayBucket)
    (hm : ∀ kv ∈ m, kv.2.netCents = 0) (hv : v.netCents = 0) :
    ∀ kv ∈ alSet m k v, kv.2.netCents = 0 := by
  induction m with
  | nil => simp [alSet, hv]
  | cons kv0 rest ih =>
    intro kv hkv
    by_cases h : kv0.1 = k
    · simp only [alSet, h, if_true, eq_self_iff_true, List.mem_cons] at hkv
      rcases hkv with hkv | hkv
      · rw [hkv]
        exact hv
      · exact hm kv (List.mem_cons_of_mem _ hkv)
    · simp only [alSet, h, if_false, List.mem_cons] at hkv
      rcases hkv with hkv | hkv
      · rw [hkv]
        exact hm kv0 (List.mem_cons_self _ _)
      · exact ih (fun x hx => hm x (List.mem_cons_of_mem _ hx)) kv hkv

theorem seedLoop_netCents_zero (ks : List String) (m : List (String × DayBucket))
    (hm : ∀ kv ∈ m, kv.2.netCents = 0) :
    ∀ kv ∈ ks.foldl (fun acc k => alSet acc k { date := formatDateLabel k, rents := 0, netCents := 0 }) m,
      kv.2.netCents = 0 := by
  induction ks generalizing m with
  | nil => simpa using hm
  | cons k rest ih =>
    intro kv hkv
    exact ih (alSet m k _) (alSet_netCents_zero m k _ hm rfl) kv hkv

theorem sumNet_of_allZero (m : List (String × DayBucket)) (hm : ∀ kv ∈ m, kv.2.netCents = 0) :
    sumNet m = 0 := by
  induction m with
  | nil => rfl
  | cons kv rest ih =>
    have h0 := hm kv (List.mem_cons_self _ _)
    have := ih (fun x hx => hm x (List.mem_cons_of_mem _ hx))
    simp [sumNet, h0, this]

theorem sumNet_seedByDay (dk : Option (List String)) : sumNet (seedByDay dk) = 0 := by
  cases dk with
  | none => rfl
  | some ks =>
    exact sumNet_of_allZero _ (seedLoop_netCents_zero ks [] (by simp))

theorem chargesFold_net_invariant (l : List Charge) (s : Agg)
    (hinv : sumNet s.byDay = s.positiveCents - s.negativeCents)
    (hcap : ∀ c ∈ l, 0 ≤ capturedCents c) :
    sumNet (l.foldl chargesStep s).byDay =
      (l.foldl chargesStep s).positiveCents - (l.foldl chargesStep s).negativeCents := by
  induction l generalizing s with
  | nil => simpa using hinv
  | cons c rest ih =>
    have hc : 0 ≤ capturedCents c := hcap c (List.mem_cons_self _ _)
    have hrest : ∀ x ∈ rest, 0 ≤ capturedCents x := fun x hx => hcap x (List.mem_cons_of_mem _ hx)
    have hstep : sumNet (chargesStep s c).byDay =
        (chargesStep s c).positiveCents - (chargesStep s c).negativeCents := by
      simp only [chargesStep, sumNet_bumpDay]
      by_cases h : 0 < capturedCents c
      · simp only [h, if_pos]
        omega
      · simp only [h, if_neg, not_false_iff]
        omega
    simpa using ih (chargesStep s c) hstep hrest

/-- C1: for every list of charge entries and every choice of dayKeys
(supplied or absent), the Charge-policy aggregation satisfies
`sum(perDay[*].netCents) = positiveCents - negativeCents` exactly, given
that every entry's captured amount is nonnegative (as Stripe's
`amount_captured`/`amount` cent fields are). -/
theorem charge_policy_net_identity (charges : List Charge) (dayKeys : Option (List String))
    (h : ∀ c ∈ charges, 0 ≤ capturedCents c) :
    sumNet (aggregateCharges charges dayKeys).byDay =
      (aggregateCharges charges dayKeys).positiveCents -
        (aggregateCharges charges dayKeys).negativeCents := by
  unfold aggregateCharges
  exact chargesFold_net_invariant charges _ (by simpa using sumNet_seedByDay dayKeys) h

/-- Witness for C1 at a concrete charge list (one captured/refunded
charge, one zero-capture anomaly, one legacy-amount charge) with
supplied day keys. -/
theorem charge_policy_net_identity_witness :
    (∀ c ∈ [⟨1705341600, some 300, none, some 100⟩,
            ⟨1705345200, some 0, none, some 300⟩,
            ⟨1705428000, none, some 500, none⟩],
        0 ≤ capturedCents c) ∧
    sumNet (aggregateCharges
        [⟨1705341600, some 300, none, some 100⟩,
         ⟨1705345200, some 0, none, some 300⟩,
         ⟨1705428000, none, some 500, none⟩]
        (some ["2024-01-15", "2024-01-16"])).byDay =
      (aggregateCharges
        [⟨1705341600, some 300, none, some 100⟩,
         ⟨1705345200, some 0, none, some 300⟩,
         ⟨1705428000, none, some 500, none⟩]
        (some ["2024-01-15", "2024-01-16"])).positiveCents -
      (aggregateCharges
        [⟨1705341600, some 300, none, some 100⟩,
         ⟨1705345200, some 0, none, some 300⟩,
         ⟨1705428000, none, some 500, none⟩]
        (some ["2024-01-15", "2024-01-16"])).negativeCents :=
  ⟨by decide, charge_policy_net_identity _ _ (by decide)⟩

/-- C2: the end-to-end Transaction-policy scenario: a 300-cent charge and
a -9-cent stripe fee on day 1 (2024-01-15 Chicago) and a 500-cent charge
on day 2, with both day keys supplied, yield totals 800 and -9 and
per-day buckets of rents 1 with net 291, and rents 1 with net 500. -/
theorem transaction_policy_scenario :
    aggregateRents
      [⟨1705341600, some "charge", some 300⟩,
       ⟨1705345200, some "stripe_fee", some (-9)⟩,
       ⟨1705428000, some "charge", some 500⟩]
      (some ["2024-01-15", "2024-01-16"]) =
    { positiveCents := 800, negativeCents := -9,
      byDay := [("2024-01-15", { date := "Jan 15, 2024", rents := 1, netCents := 291 }),
                ("2024-01-16", { date := "Jan 16, 2024", rents := 1, netCents := 500 })] } := by
  decide

/-- C3: per-entry behaviour of the Transaction policy: an unrecognized
type leaves the whole aggregate unchanged; a recognized entry adds its
net to positiveCents when positive and to negativeCents when negative
(neither when zero), always adds its signed net to its day's netCents,
increments the day's rent count exactly when the type is `charge` with
positive net, and touches no other day. -/
theorem transaction_policy_entry_contribution (bts : List BalanceTransaction)
    (dayKeys : Option (List String)) (e : BalanceTransaction) :
    (REVENUE_TYPES.contains (e.type.getD "") = false →
      aggregateRents (bts ++ [e]) dayKeys = aggregateRents bts dayKeys) ∧
    (REVENUE_TYPES.contains (e.type.getD "") = true →
      (aggregateRents (bts ++ [e]) dayKeys).positiveCents =
        (aggregateRents bts dayKeys).positiveCents +
          (if 0 < e.net.getD 0 then e.net.getD 0 else 0) ∧
      (aggregateRents (bts ++ [e]) dayKeys).negativeCents =
        (aggregateRents bts dayKeys).negativeCents +
          (if e.net.getD 0 < 0 then e.net.getD 0 else 0) ∧
      netAt (aggregateRents (bts ++ [e]) dayKeys).byDay (chicagoDateStringFromUnix e.created) =
        netAt (aggregateRents bts dayKeys).byDay (chicagoDateStringFromUnix e.created) +
          e.net.getD 0 ∧
      rentsAt (aggregateRents (bts ++ [e]) dayKeys).byDay (chicagoDateStringFromUnix e.created) =
        rentsAt (aggregateRents bts dayKeys).byDay (chicagoDateStringFromUnix e.created) +
          (if e.type.getD "" = "charge" ∧ 0 < e.net.getD 0 then 1 else 0) ∧
      ∀ k, k ≠ chicagoDateStringFromUnix e.created →
        netAt (aggregateRents (bts ++ [e]) dayKeys).byDay k =
          netAt (aggregateRents bts dayKeys).byDay k ∧
        rentsAt (aggregateRents (bts ++ [e]) dayKeys).byDay k =
          rentsAt (aggregateRents bts dayKeys).byDay k) := by
  rw [aggregateRents_append_single]
  constructor
  · intro hrec
    exact rentsStep_unrecognized _ _ hrec
  · intro hrec
    rw [rentsStep_recognized _ _ hrec]
    refine ⟨?_, ?_, ?_, ?_, ?_⟩
    · by_cases hn : 0 < e.net.getD 0 <;> simp [hn]
    · by_cases hn : e.net.getD 0 < 0 <;> simp [hn]
    · exact netAt_bumpDay_self _ _ _ _ _
    · exact rentsAt_bumpDay_self _ _ _ _ _
    · intro k hk
      constructor
      · simp [netAt, alGet_bumpDay_ne _ _ _ _ _ _ hk]
      · simp [rentsAt, alGet_bumpDay_ne _ _ _ _ _ _ hk]

/-- Witness for C3: instantiating the recognized branch at a concrete
charge entry shows the positive total growing by its net. -/
theorem transaction_policy_entry_contribution_witness :
    REVENUE_TYPES.contains ((some "charge").getD "") = true ∧
    (aggregateRents ([] ++ [⟨1705341600, some "charge", some 300⟩]) none).positiveCents =
      (aggregateRents [] none).positiveCents + (if (0 : Int) < 300 then 300 else 0) := by
  refine ⟨by decide, ?_⟩
  have h := (transaction_policy_entry_contribution []
    none ⟨1705341600, some "charge", some 300⟩).2 (by decide)
  exact h.1

/-- C4: a charge whose captured cents are zero is excluded from the
Charge-policy aggregation entirely: totals, every day's net and every
day's rent count are unchanged, regardless of its refunded amount. -/
theorem zero_capture_excluded (charges : List Charge) (dayKeys : Option (List String))
    (c : Charge) (hzero : capturedCents c = 0) :
    (aggregateCharges (charges ++ [c]) dayKeys).positiveCents =
      (aggregateCharges charges dayKeys).positiveCents ∧
    (aggregateCharges (charges ++ [c]) dayKeys).negativeCents =
      (aggregateCharges charges dayKeys).negativeCents ∧
    ∀ k, netAt (aggregateCharges (charges ++ [c]) dayKeys).byDay k =
          netAt (aggregateCharges charges dayKeys).byDay k ∧
        rentsAt (aggregateCharges (charges ++ [c]) dayKeys).byDay k =
          rentsAt (aggregateCharges charges dayKeys).byDay k := by
  rw [aggregateCharges_append_single]
  refine ⟨?_, ?_, ?_⟩
  · simp [chargesStep, hzero]
  · simp [chargesStep, hzero]
  · intro k
    by_cases hk : k = chicagoDateStringFromUnix c.created
    · subst hk
      constructor
      · simp only [chargesStep, hzero]
        rw [netAt_bumpDay_self]
        simp
      · simp only [chargesStep, hzero]
        rw [rentsAt_bumpDay_self]
        simp
    · constructor
      · simp only [chargesStep, hzero]
        simp [netAt, alGet_bumpDay_ne _ _ _ _ _ _ hk]
      · simp only [chargesStep, hzero]
        simp [rentsAt, alGet_bumpDay_ne _ _ _ _ _ _ hk]

/-- Witness for C4: a $0-captured, $3-refunded charge appended to a
one-charge list changes neither total; its refunded amount is strictly
positive. -/
theorem zero_capture_excluded_witness :
    capturedCents ⟨1705345200, some 0, none, some 300⟩ = 0 ∧
    0 < refundedCents ⟨1705345200, some 0, none, some 300⟩ ∧
    (aggregateCharges ([⟨1705341600, some 500, none, some 0⟩] ++
        [⟨1705345200, some 0, none, some 300⟩]) none).positiveCents =
      (aggregateCharges [⟨1705341600, some 500, none, some 0⟩] none).positiveCents ∧
    (aggregateCharges ([⟨1705341600, some 500, none, some 0⟩] ++
        [⟨1705345200, some 0, none, some 300⟩]) none).negativeCents =
      (aggregateCharges [⟨1705341600, some 500, none, some 0⟩] none).negativeCents :=
  ⟨by decide, by decide,
    (zero_capture_excluded _ none _ (by decide)).1,
    (zero_capture_excluded _ none _ (by decide)).2.1⟩

/-- C5: the day key is the civil date under the zone's offset rules, not
a UTC truncation: at any instant where the Chicago offset is UTC-6, a
UTC time-of-day before 06:00 buckets to the civil date one day before the
UTC date. -/
theorem chicago_day_key_previous_civil_date (u : Int)
    (hoff : chicagoOffsetSeconds u = -21600)
    (hlt : u % 86400 < 21600) :
    chicagoDateStringFromUnix u = toISODate (civilFromDays (u / 86400 - 1)) := by
  unfold chicagoDateStringFromUnix chicagoCivilFromUnix
  rw [hoff]
  congr 2
  have hadd : u + (-21600 : Int) = u - 21600 := by ring
  rw [hadd]
  omega

/-- Witness for C5 at 2024-01-15 05:59:00 UTC (CST in force): the key is
the previous civil date 2024-01-14, while the UTC date is 2024-01-15. -/
theorem chicago_day_key_previous_civil_date_witness :
    chicagoOffsetSeconds 1705298340 = -21600 ∧
    1705298340 % 86400 < 21600 ∧
    chicagoDateStringFromUnix 1705298340 = toISODate (civilFromDays (1705298340 / 86400 - 1)) ∧
    chicagoDateStringFromUnix 1705298340 = "2024-01-14" ∧
    toISODate (civilFromDays (1705298340 / 86400)) = "2024-01-15" :=
  ⟨by decide, by decide,
    chicago_day_key_previous_civil_date 1705298340 (by decide) (by decide),
    by decide, by decide⟩

/-- C6: the mtd comparison window runs from the first of the previous
month to `today.minus({months: 1})`, whose day-of-month is today's when
the previous month is long enough and otherwise clamps to the previous
month's last day; it stays inside the previous month in all cases. -/
theorem mtd_comparison_window_clamped (today : Civil)
    (hm1 : 1 ≤ today.month) (hm2 : today.month ≤ 12)
    (hd1 : 1 ≤ today.day) :
    (mtdComparisonWindow today).1 =
      { year := if today.month = 1 then today.year - 1 else today.year,
        month := if today.month = 1 then 12 else today.month - 1,
        day := 1 } ∧
    (mtdComparisonWindow today).2.year =
      (if today.month = 1 then today.year - 1 else today.year) ∧
    (mtdComparisonWindow today).2.month =
      (if today.month = 1 then 12 else today.month - 1) ∧
    1 ≤ (mtdComparisonWindow today).2.day ∧
    (mtdComparisonWindow today).2.day ≤
      daysInMonth (if today.month = 1 then today.year - 1 else today.year)
        (if today.month = 1 then 12 else today.month - 1) ∧
    (daysInMonth (if today.month = 1 then today.year - 1 else today.year)
        (if today.month = 1 then 12 else today.month - 1) < today.day →
      (mtdComparisonWindow today).2.day =
        daysInMonth (if today.month = 1 then today.year - 1 else today.year)
          (if today.month = 1 then 12 else today.month - 1)) ∧
    (today.day ≤ daysInMonth (if today.month = 1 then today.year - 1 else today.year)
        (if today.month = 1 then 12 else today.month - 1) →
      (mtdComparisonWindow today).2.day = today.day) := by
  obtain ⟨yy, mm, dd⟩ := today
  dsimp only at hm1 hm2 hd1 ⊢
  have h28 : 28 ≤ daysInMonth (if mm = 1 then yy - 1 else yy)
      (if mm = 1 then 12 else mm - 1) := by
    rcases eq_or_ne mm 1 with h1 | h1
    · rw [if_pos h1, if_pos h1]
      unfold daysInMonth
      split_ifs <;> omega
    · rw [if_neg h1, if_neg h1]
      unfold daysInMonth
      split_ifs <;> omega
  refine ⟨?_, rfl, rfl, ?_, ?_, ?_, ?_⟩
  · simp only [mtdComparisonWindow, minusOneMonth, Civil.mk.injEq]
    exact ⟨trivial, trivial, by omega⟩
  · simp only [mtdComparisonWindow, minusOneMonth]
    omega
  · simp only [mtdComparisonWindow, minusOneMonth]
    omega
  · simp only [mtdComparisonWindow, minusOneMonth]
    omega
  · simp only [mtdComparisonWindow, minusOneMonth]
    omega

/-- Witness for C6 at 2024-03-31: the previous month (February of a leap
year) has 29 days, so the comparison window is 2024-02-01 .. 2024-02-29. -/
theorem mtd_comparison_window_clamped_witness :
    (1 : Int) ≤ 3 ∧ (3 : Int) ≤ 12 ∧ (1 : Int) ≤ 31 ∧
    (mtdComparisonWindow { year := 2024, month := 3, day := 31 }).1 =
      { year := 2024, month := 2, day := 1 } ∧
    (mtdComparisonWindow { year := 2024, month := 3, day := 31 }).2.day =
      daysInMonth 2024 2 := by
  refine ⟨by decide, by decide, by decide, ?_, ?_⟩
  · exact (mtd_comparison_window_clamped { year := 2024, month := 3, day := 31 }
      (by decide) (by decide) (by decide)).1
  · have h := (mtd_comparison_window_clamped { year := 2024, month := 3, day := 31 }
      (by decide) (by decide) (by decide)).2.2.2.2.2.1
    simpa using h (by decide)

/-- C7: in the day-key alignment, a primary day whose one-month-earlier
key has no bucket in the comparison aggregate yields a row with
`prents: 0, pmoney: "$0"`, and the response is still a success. -/
theorem missing_comparison_day_defaults (lbl : String) (dayKeys prevDayKeys : List String)
    (bts prevBts : List BalanceTransaction) (i : Nat) (key : String)
    (hk : dayKeys[i]? = some key)
    (habs : alGet (aggregateRents prevBts (some prevDayKeys)).byDay (prevKeyIso key) = none) :
    (windowRespond lbl dayKeys prevDayKeys bts prevBts).success = true ∧
    (windowRespond lbl dayKeys prevDayKeys bts prevBts).data[i]? =
      some (rowFor (aggregateRents bts (some dayKeys)).byDay
        (aggregateRents prevBts (some prevDayKeys)).byDay key) ∧
    (rowFor (aggregateRents bts (some dayKeys)).byDay
        (aggregateRents prevBts (some prevDayKeys)).byDay key).prents = 0 ∧
    (rowFor (aggregateRents bts (some dayKeys)).byDay
        (aggregateRents prevBts (some prevDayKeys)).byDay key).pmoney = "$0" := by
  refine ⟨rfl, ?_, ?_, ?_⟩
  · simp [windowRespond, alignData, List.getElem?_map, hk]
  · simp [rowFor, habs]
  · simp [rowFor, habs]

/-- Witness for C7: primary day 2024-03-31 maps to comparison key
2024-02-29, absent from a comparison aggregate seeded only with
2024-02-01; the row defaults apply and the response succeeds. -/
theorem missing_comparison_day_defaults_witness :
    (["2024-03-31"][0]? = some "2024-03-31") ∧
    alGet (aggregateRents [] (some ["2024-02-01"])).byDay (prevKeyIso "2024-03-31") = none ∧
    (windowRespond "w" ["2024-03-31"] ["2024-02-01"] [] []).success = true ∧
    (rowFor (aggregateRents [] (some ["2024-03-31"])).byDay
        (aggregateRents [] (some ["2024-02-01"])).byDay "2024-03-31").prents = 0 ∧
    (rowFor (aggregateRents [] (some ["2024-03-31"])).byDay
        (aggregateRents [] (some ["2024-02-01"])).byDay "2024-03-31").pmoney = "$0" :=
  ⟨by decide, by decide,
    (missing_comparison_day_defaults "w" ["2024-03-31"] ["2024-02-01"] [] [] 0 "2024-03-31"
      (by decide) (by decide)).1,
    (missing_comparison_day_defaults "w" ["2024-03-31"] ["2024-02-01"] [] [] 0 "2024-03-31"
      (by decide) (by decide)).2.2.1,
    (missing_comparison_day_defaults "w" ["2024-03-31"] ["2024-02-01"] [] [] 0 "2024-03-31"
      (by decide) (by decide)).2.2.2⟩

/-- C8: `GET /rents/range` rejects with status 400 and a
`success: false` envelope whenever `from` or `to` is missing or `from`
parses to an instant after `to`; the validation phase then never reaches
the proceed outcome that carries the fetch parameters. -/
theorem rents_range_validation_rejects (fp tp : Option String)
    (h : fp = none ∨ tp = none ∨
      ∃ f t, fp = some f ∧ tp = some t ∧
        chicagoLocalToUnix (parseIsoCivil t) 0 < chicagoLocalToUnix (parseIsoCivil f) 0) :
    ∃ env, rentsRangeValidate fp tp = .reject 400 env ∧ env.success = false := by
  rcases h with h | h | ⟨f, t, hf, ht, hlt⟩
  · subst h
    cases tp <;>
      exact ⟨{ success := false, error := "Query params from and to (YYYY-MM-DD) are required." },
        rfl, rfl⟩
  · subst h
    cases fp <;>
      exact ⟨{ success := false, error := "Query params from and to (YYYY-MM-DD) are required." },
        rfl, rfl⟩
  · subst hf
    subst ht
    by_cases he : f = "" ∨ t = ""
    · exact ⟨{ success := false, error := "Query params from and to (YYYY-MM-DD) are required." },
        by simp [rentsRangeValidate, he], rfl⟩
    · exact ⟨{ success := false, error := "from must be on or before to." },
        by simp [rentsRangeValidate, he, hlt], rfl⟩

/-- Witness for C8 with `from` = 2024-02-02 after `to` = 2024-02-01. -/
theorem rents_range_validation_rejects_witness :
    chicagoLocalToUnix (parseIsoCivil "2024-02-01") 0 <
      chicagoLocalToUnix (parseIsoCivil "2024-02-02") 0 ∧
    ∃ env, rentsRangeValidate (some "2024-02-02") (some "2024-02-01") = .reject 400 env ∧
      env.success = false :=
  ⟨by decide,
    rents_range_validation_rejects (some "2024-02-02") (some "2024-02-01")
      (Or.inr (Or.inr ⟨"2024-02-02", "2024-02-01", rfl, rfl, by decide⟩))⟩

/-- C9 (evaluation of the code at the failing input): the route treats a
dot-separated parameter as one opaque station id; with stations `STA`
and `STB` both present and configured, `STA.STB` is looked up as a
single id and rejected 404, instead of being split and aggregated. -/
theorem station_route_dot_list_not_split :
    rentsMtdStationResolve
      (fun s => if s = "STA" then some (some "cus_A")
        else if s = "STB" then some (some "cus_B") else none)
      "STA.STB" =
    .reject 404 { success := false, error := "Station not found." } := by
  decide

/-- C10: with dayKeys supplied, a recognized entry dated outside them
still moves the totals and lands in a lazily created bucket, while the
route's data array remains one row per supplied day key, none of which
is the entry's day. -/
theorem totals_can_exceed_displayed_days (dayKeys : List String)
    (bts : List BalanceTransaction) (e : BalanceTransaction)
    (byDayPrev : List (String × DayBucket))
    (hrec : REVENUE_TYPES.contains (e.type.getD "") = true)
    (hnot : chicagoDateStringFromUnix e.created ∉ dayKeys) :
    (aggregateRents (bts ++ [e]) (some dayKeys)).positiveCents =
      (aggregateRents bts (some dayKeys)).positiveCents +
        (if 0 < e.net.getD 0 then e.net.getD 0 else 0) ∧
    (aggregateRents (bts ++ [e]) (some dayKeys)).negativeCents =
      (aggregateRents bts (some dayKeys)).negativeCents +
        (if e.net.getD 0 < 0 then e.net.getD 0 else 0) ∧
    (alGet (aggregateRents (bts ++ [e]) (some dayKeys)).byDay
        (chicagoDateStringFromUnix e.created)).isSome = true ∧
    netAt (aggregateRents (bts ++ [e]) (some dayKeys)).byDay
        (chicagoDateStringFromUnix e.created) =
      netAt (aggregateRents bts (some dayKeys)).byDay
        (chicagoDateStringFromUnix e.created) + e.net.getD 0 ∧
    (alignData dayKeys (aggregateRents (bts ++ [e]) (some dayKeys)).byDay byDayPrev).length =
      dayKeys.length ∧
    ∀ row ∈ alignData dayKeys (aggregateRents (bts ++ [e]) (some dayKeys)).byDay byDayPrev,
      ∃ k, k ∈ dayKeys ∧ k ≠ chicagoDateStringFromUnix e.created ∧
        row = rowFor (aggregateRents (bts ++ [e]) (some dayKeys)).byDay byDayPrev k := by
  rw [aggregateRents_append_single, rentsStep_recognized _ _ hrec]
  refine ⟨?_, ?_, ?_, ?_, ?_, ?_⟩
  · by_cases hn : 0 < e.net.getD 0 <;> simp [hn]
  · by_cases hn : e.net.getD 0 < 0 <;> simp [hn]
  · exact alGet_bumpDay_self_isSome _ _ _ _ _
  · exact netAt_bumpDay_self _ _ _ _ _
  · simp [alignData]
  · intro row hrow
    simp only [alignData] at hrow
    rcases List.mem_map.mp hrow with ⟨k, hkmem, hkeq⟩
    exact ⟨k, hkmem, fun hc => hnot (hc ▸ hkmem), hkeq.symm⟩

/-- Witness for C10: a recognized 300-cent charge dated 2024-01-15 with
dayKeys = 2024-01-16 only; the positive total still grows by 300. -/
theorem totals_can_exceed_displayed_days_witness :
    REVENUE_TYPES.contains ((some "charge").getD "") = true ∧
    chicagoDateStringFromUnix 1705341600 ∉ ["2024-01-16"] ∧
    (aggregateRents [⟨1705341600, some "charge", some 300⟩] (some ["2024-01-16"])).positiveCents =
      (aggregateRents [] (some ["2024-01-16"])).positiveCents + 300 := by
  refine ⟨by decide, by decide, ?_⟩
  have h := (totals_can_exceed_displayed_days ["2024-01-16"] []
    ⟨1705341600, some "charge", some 300⟩ [] (by decide) (by decide)).1
  simpa using h

end KeyExtract
